import Mathlib

/-!
# MindMeet meeting-recording core: a shallow embedding

This file embeds the meeting-recording lifecycle of the MindMeet client
(the `MeetingProvider` React context) in Lean 4 and proves properties of
it.  The provider holds six pieces of state — the stored meetings list,
the current in-progress meeting, the recording flag, the elapsed-seconds
counter, the live transcript and the participant roster — and exposes
operations `startRecording`, `pauseRecording`, `resumeRecording`,
`stopRecording`, `addTranscriptLine`, `updateMeetingStatus`,
`getMeetingById`, `deleteMeeting`, `generateAnalysis`, plus a derived
`stats` record and a persistence effect.

Wall-clock reads (`Date.now()`, `new Date()`) are passed in explicitly as
a `Wall` value; the once-per-second timer that runs while recording is
modelled as a `tick` event delivered only while `isRecording` holds,
matching the source where the interval is created on `isRecording`
becoming true and cleared when it becomes false.
-/

/-- A wall-clock reading: `ms` stands for `Date.now()` (also used as the
fresh-id source), `month`/`year` for `new Date().getMonth()` /
`.getFullYear()`. -/
structure Wall where
  ms : Nat
  month : Nat
  year : Nat
deriving Repr, DecidableEq

/-- Calendar month+year extracted from a stored `createdAt` ISO string. -/
structure MDate where
  month : Nat
  year : Nat
deriving Repr, DecidableEq

/-- A meeting participant: `{id, name, avatar, speaking}`. -/
structure Participant where
  id : Nat
  name : String
  avatar : String
  speaking : Bool
deriving Repr, DecidableEq

/-- A transcript line.  Callers supply `speaker`, `text` and (per the
source doc comment) `timestamp`; the session stamps `id` and `time` when
appending.  Fields a given object does not carry are `none`. -/
structure TranscriptLine where
  speaker : String
  text : String
  timestamp : Option Nat := none
  id : Option Nat := none
  time : Option Nat := none
deriving Repr, DecidableEq

/-- `position: {x, y}` of a mind-map node. -/
structure NodePos where
  x : Nat
  y : Nat
deriving Repr, DecidableEq

/-- A node of the generated mind map. -/
structure MindMapNode where
  id : Nat
  label : String
  position : NodePos
deriving Repr, DecidableEq

/-- The generated mind map. -/
structure MindMap where
  centralTopic : String
  nodes : List MindMapNode
deriving Repr, DecidableEq

/-- An action item of the generated analysis. -/
structure ActionItem where
  task : String
  assignee : String
  deadline : String
deriving Repr, DecidableEq

/-- The analysis payload attached by `generateAnalysis`. -/
structure Analysis where
  mindMap : MindMap
  summary : String
  keyPoints : List String
  actionItems : List ActionItem
deriving Repr, DecidableEq

/-- The fixed analysis payload produced by the source's simulated AI step. -/
def mindmeetAnalysis : Analysis :=
  { mindMap :=
      { centralTopic := "Proyecto MindMeet",
        nodes :=
          [ { id := 1, label := "Transcripción IA", position := { x := 20, y := 20 } },
            { id := 2, label := "Mapas Mentales", position := { x := 80, y := 20 } },
            { id := 3, label := "Integraciones", position := { x := 20, y := 80 } },
            { id := 4, label := "Demo Deloitte", position := { x := 80, y := 80 } } ] },
    summary := "Reunión sobre el progreso del proyecto MindMeet para Deloitte Colombia.",
    keyPoints :=
      [ "Módulo de transcripción completado con 94% de precisión",
        "Algoritmo de mapas mentales funcionando correctamente",
        "Preparación de demo para cliente" ],
    actionItems :=
      [ { task := "Finalizar integraciones", assignee := "Brayan", deadline := "2025-03-25" },
        { task := "Preparar presentación", assignee := "María", deadline := "2025-03-24" } ] }

/-- A meeting record.  `startRecording` fills only `id`, `title`,
`startTime`, `status` and `participants`; `stopRecording` adds the rest
via object spread, so the late fields default to `none`/`[]` while the
meeting is in progress. -/
structure Meeting where
  id : String
  title : String
  startTime : Nat
  status : String
  participants : List Participant
  endTime : Option Nat := none
  duration : Option Nat := none
  transcript : List TranscriptLine := []
  createdAt : Option MDate := none
  analysis : Option Analysis := none
deriving Repr, DecidableEq

/-- The provider's state: the six `useState` cells of `MeetingProvider`. -/
structure MeetingState where
  meetings : List Meeting
  currentMeeting : Option Meeting
  isRecording : Bool
  recordingTime : Nat
  liveTranscript : List TranscriptLine
  participants : List Participant
deriving Repr, DecidableEq

/-- The derived `stats` object. -/
structure Stats where
  total : Nat
  thisMonth : Nat
  completed : Nat
  totalDuration : Nat
deriving Repr, DecidableEq

/-- `startRecording`'s config argument: `{title?, participants?}`. -/
structure Config where
  title : Option String := none
  participants : Option (List Participant) := none
deriving Repr

/-- JavaScript `s || d` for an optional string: the empty string is falsy,
so it also falls back to the default. -/
def jsOrString (v : Option String) (d : String) : String :=
  match v with
  | some t => if t.isEmpty then d else t
  | none => d

/-- The default roster seeded when `config.participants` is absent. -/
def defaultParticipants : List Participant :=
  [ { id := 1, name := "María Jiménez", avatar := "MJ", speaking := false },
    { id := 2, name := "Brayan Barón", avatar := "BB", speaking := false },
    { id := 3, name := "José Egurrola", avatar := "JE", speaking := false } ]

/-- `startRecording(config)`: builds a fresh meeting and unconditionally
overwrites the session state — there is no check that a session is already
active.  Returns the new meeting and the updated state. -/
def startRecording (w : Wall) (config : Config) (s : MeetingState) :
    Meeting × MeetingState :=
  let newMeeting : Meeting :=
    { id := "meeting_" ++ toString w.ms,
      title := jsOrString config.title "Nueva Reunión",
      startTime := w.ms,
      status := "recording",
      participants := config.participants.getD defaultParticipants }
  (newMeeting,
   { s with
       currentMeeting := some newMeeting,
       isRecording := true,
       recordingTime := 0,
       liveTranscript := [],
       participants := newMeeting.participants })

/-- `pauseRecording()`: clears the recording flag. -/
def pauseRecording (s : MeetingState) : MeetingState :=
  { s with isRecording := false }

/-- `resumeRecording()`: sets the recording flag. -/
def resumeRecording (s : MeetingState) : MeetingState :=
  { s with isRecording := true }

/-- The stamped line actually appended by `addTranscriptLine`: the object
spread `{...line, id: Date.now(), time: recordingTime}` keeps the caller's
`speaker`, `text` and `timestamp` fields and overrides `id` and `time`. -/
def stampLine (w : Wall) (elapsed : Nat) (line : TranscriptLine) : TranscriptLine :=
  { line with id := some w.ms, time := some elapsed }

/-- `addTranscriptLine(line)`: appends the stamped line to the live
transcript.  There is no active-session check. -/
def addTranscriptLine (w : Wall) (line : TranscriptLine) (s : MeetingState) :
    MeetingState :=
  { s with liveTranscript := s.liveTranscript ++ [stampLine w s.recordingTime line] }

/-- `stopRecording()`: returns `null` and leaves the state alone when no
meeting is current; otherwise finalises the meeting (spread of
`currentMeeting` plus `endTime`, `duration`, `status: processing`,
`transcript`, `createdAt`), prepends it to `meetings`, and resets the
session cells.  (The 3-second `setTimeout` that later marks the meeting
`completed` is the separate deferred action `stopDeferredAction`.) -/
def stopRecording (w : Wall) (s : MeetingState) : Option Meeting × MeetingState :=
  match s.currentMeeting with
  | none => (none, s)
  | some cm =>
    let completedMeeting : Meeting :=
      { cm with
          endTime := some w.ms,
          duration := some s.recordingTime,
          status := "processing",
          transcript := s.liveTranscript,
          createdAt := some { month := w.month, year := w.year } }
    (some completedMeeting,
     { s with
         meetings := completedMeeting :: s.meetings,
         currentMeeting := none,
         isRecording := false,
         recordingTime := 0,
         liveTranscript := [],
         participants := [] })

/-- `updateMeetingStatus(meetingId, status)`: maps over the collection,
replacing the status of the matching record. -/
def updateMeetingStatus (meetingId : String) (status : String) (s : MeetingState) :
    MeetingState :=
  { s with
      meetings := s.meetings.map fun m =>
        if m.id = meetingId then { m with status := status } else m }

/-- The body of the `setTimeout` scheduled by `stopRecording`: marks the
stopped meeting `completed` 3 seconds later. -/
def stopDeferredAction (meetingId : String) (s : MeetingState) : MeetingState :=
  updateMeetingStatus meetingId "completed" s

/-- `getMeetingById(meetingId)`: first match or `null`. -/
def getMeetingById (meetingId : String) (s : MeetingState) : Option Meeting :=
  s.meetings.find? fun m => m.id == meetingId

/-- `deleteMeeting(meetingId)`: filters the record out; no-op if absent. -/
def deleteMeeting (meetingId : String) (s : MeetingState) : MeetingState :=
  { s with meetings := s.meetings.filter fun m => m.id != meetingId }

/-- The state update performed by `generateAnalysis(meetingId)` after its
simulated delay: attaches the fixed payload to the matching meeting.  It
touches no other field — in particular it does not change `status`. -/
def generateAnalysisUpdate (meetingId : String) (s : MeetingState) : MeetingState :=
  { s with
      meetings := s.meetings.map fun m =>
        if m.id = meetingId then { m with analysis := some mindmeetAnalysis } else m }

/-- The month filter of `stats.thisMonth`: does the meeting's `createdAt`
fall in the wall clock's current calendar month and year?  A missing
`createdAt` parses to an invalid date whose month/year comparisons are
false. -/
def isThisMonth (w : Wall) (m : Meeting) : Bool :=
  match m.createdAt with
  | some d => d.month == w.month && d.year == w.year
  | none => false

/-- The derived `stats` object, computed from the collection and the
wall clock (`new Date()` at evaluation time).  A missing `duration`
contributes 0 via `(m.duration || 0)`. -/
def statsOf (w : Wall) (ms : List Meeting) : Stats :=
  { total := ms.length,
    thisMonth := (ms.filter (isThisMonth w)).length,
    completed := (ms.filter fun m => m.status == "completed").length,
    totalDuration := ms.foldl (fun acc m => acc + m.duration.getD 0) 0 }

/-- The persistence effect (`useEffect` on `[meetings]`): writes the full
collection to the `mindmeet-meetings` key only when it is non-empty; an
empty collection leaves whatever was stored before in place. -/
def persistEffect (stored : Option (List Meeting)) (ms : List Meeting) :
    Option (List Meeting) :=
  if ms.length > 0 then some ms else stored

/-- An event that may interleave with an active session: a clock tick
(delivered once per second while `isRecording`, since the interval is
created when recording starts and cleared when it stops), a pause, a
resume, or an `addTranscriptLine` call. -/
inductive SEvent where
  | tick : SEvent
  | pauseEv : SEvent
  | resumeEv : SEvent
  | appendEv : Wall → TranscriptLine → SEvent
deriving Repr

/-- One step of the interleaving.  A `tick` advances `recordingTime` only
while `isRecording` — when recording is off the interval does not exist,
so a tick is a no-op. -/
def step (s : MeetingState) : SEvent → MeetingState
  | SEvent.tick =>
      if s.isRecording then { s with recordingTime := s.recordingTime + 1 } else s
  | SEvent.pauseEv => pauseRecording s
  | SEvent.resumeEv => resumeRecording s
  | SEvent.appendEv w line => addTranscriptLine w line s

/-- Run a list of events from a state, in order. -/
def runEvents (s : MeetingState) : List SEvent → MeetingState
  | [] => s
  | e :: es => runEvents (step s e) es

/-- The number of whole seconds spent in the `Recording` state along an
event list, starting with recording flag `b`: the count of clock ticks
delivered while the flag is up. -/
def recSeconds (b : Bool) : List SEvent → Nat
  | [] => 0
  | SEvent.tick :: es => (if b then 1 else 0) + recSeconds b es
  | SEvent.pauseEv :: es => recSeconds false es
  | SEvent.resumeEv :: es => recSeconds true es
  | SEvent.appendEv _ _ :: es => recSeconds b es

/-- The lines appended along an event list, in call order, each stamped
with the elapsed time current at its append event (`t` is the elapsed
time and `b` the recording flag at the start of the list). -/
def appendedLines (t : Nat) (b : Bool) : List SEvent → List TranscriptLine
  | [] => []
  | SEvent.tick :: es => appendedLines (if b then t + 1 else t) b es
  | SEvent.pauseEv :: es => appendedLines t false es
  | SEvent.resumeEv :: es => appendedLines t true es
  | SEvent.appendEv w line :: es => stampLine w t line :: appendedLines t b es

/-- The provider's initial state: empty store, no session. -/
def emptyState : MeetingState :=
  { meetings := [], currentMeeting := none, isRecording := false,
    recordingTime := 0, liveTranscript := [], participants := [] }

/-- A caller-supplied transcript line carrying only speaker and text. -/
def sampleLine : TranscriptLine := { speaker := "A", text := "hola" }

/-- A caller-supplied line that also carries a `timestamp` field, as the
source's doc comment for `addTranscriptLine` describes. -/
def timestampedLine : TranscriptLine :=
  { speaker := "B", text := "ok", timestamp := some 99 }

/-- A finalized meeting as it sits in the store after a stop. -/
def mStored : Meeting :=
  { id := "meeting_7", title := "Planning", startTime := 7,
    status := "processing", participants := [], endTime := some 67,
    duration := some 60, createdAt := some { month := 2, year := 2026 } }

/-- A state with `mStored` in the store and no active session. -/
def sStore : MeetingState :=
  { meetings := [mStored], currentMeeting := none, isRecording := false,
    recordingTime := 0, liveTranscript := [], participants := [] }

/-- An in-progress meeting. -/
def mCur : Meeting :=
  { id := "meeting_100", title := "Standup", startTime := 100,
    status := "recording", participants := defaultParticipants }

/-- A state with an active recording session: 5 elapsed seconds and one
transcript line already captured. -/
def sActive : MeetingState :=
  { meetings := [], currentMeeting := some mCur, isRecording := true,
    recordingTime := 5,
    liveTranscript := [stampLine { ms := 103, month := 2, year := 2026 } 1 sampleLine],
    participants := defaultParticipants }

/-- An in-progress meeting whose id collides with `mStored`. -/
def mDupCurrent : Meeting :=
  { id := "meeting_7", title := "Retro", startTime := 50,
    status := "recording", participants := [] }

/-- A state in which the current meeting's id is already present in the
store. -/
def sDup : MeetingState :=
  { meetings := [mStored], currentMeeting := some mDupCurrent,
    isRecording := true, recordingTime := 4, liveTranscript := [],
    participants := [] }

/-! ## Helper lemmas -/

/-- A single event never touches the current meeting. -/
theorem step_currentMeeting (s : MeetingState) (e : SEvent) :
    (step s e).currentMeeting = s.currentMeeting := by
  cases e with
  | tick =>
    by_cases hb : s.isRecording <;> simp [step, hb]
  | pauseEv => simp [step, pauseRecording]
  | resumeEv => simp [step, resumeRecording]
  | appendEv w line => simp [step, addTranscriptLine]

/-- Running events never touches the current meeting. -/
theorem runEvents_currentMeeting (es : List SEvent) :
    ∀ s : MeetingState, (runEvents s es).currentMeeting = s.currentMeeting := by
  induction es with
  | nil => intro s; simp [runEvents]
  | cons e es ih => intro s; rw [runEvents, ih, step_currentMeeting]

/-- The elapsed counter after a run is the starting counter plus the
number of ticks delivered while recording. -/
theorem runEvents_recordingTime (es : List SEvent) :
    ∀ s : MeetingState,
      (runEvents s es).recordingTime = s.recordingTime + recSeconds s.isRecording es := by
  induction es with
  | nil => intro s; simp [runEvents, recSeconds]
  | cons e es ih =>
    intro s
    cases e with
    | tick =>
      by_cases hb : s.isRecording
      · rw [runEvents]
        simp only [step, hb, if_true, ih, recSeconds]
        omega
      · rw [runEvents]
        simp only [step, hb, if_false, ih, recSeconds]
        simp [hb]
    | pauseEv =>
      rw [runEvents]
      simp [step, pauseRecording, ih, recSeconds]
    | resumeEv =>
      rw [runEvents]
      simp [step, resumeRecording, ih, recSeconds]
    | appendEv w line =>
      rw [runEvents]
      simp [step, addTranscriptLine, ih, recSeconds]

/-- The transcript after a run is the starting transcript followed by the
appended lines, in call order. -/
theorem runEvents_liveTranscript (es : List SEvent) :
    ∀ s : MeetingState,
      (runEvents s es).liveTranscript =
        s.liveTranscript ++ appendedLines s.recordingTime s.isRecording es := by
  induction es with
  | nil => intro s; simp [runEvents, appendedLines]
  | cons e es ih =>
    intro s
    cases e with
    | tick =>
      by_cases hb : s.isRecording
      · rw [runEvents]
        simp only [step, hb, if_true, ih, appendedLines]
      · rw [runEvents]
        simp only [step, hb, if_false, ih, appendedLines]
        simp [hb]
    | pauseEv =>
      rw [runEvents]
      simp [step, pauseRecording, ih, appendedLines]
    | resumeEv =>
      rw [runEvents]
      simp [step, resumeRecording, ih, appendedLines]
    | appendEv w line =>
      rw [runEvents]
      simp [step, addTranscriptLine, ih, appendedLines, stampLine]

/-- Every line appended from elapsed time `t` onward is stamped with a
time of at least `t`. -/
theorem appendedLines_time_ge (es : List SEvent) :
    ∀ (t : Nat) (b : Bool) (l : TranscriptLine),
      l ∈ appendedLines t b es → ∃ u, l.time = some u ∧ t ≤ u := by
  induction es with
  | nil => intro t b l hl; simp [appendedLines] at hl
  | cons e es ih =>
    intro t b l hl
    cases e with
    | tick =>
      rw [appendedLines] at hl
      obtain ⟨u, hu, htu⟩ := ih _ b l hl
      refine ⟨u, hu, le_trans ?_ htu⟩
      by_cases hb : b <;> simp [hb]
    | pauseEv => exact ih t false l hl
    | resumeEv => exact ih t true l hl
    | appendEv w line =>
      rw [appendedLines] at hl
      rcases List.mem_cons.mp hl with h | h
      · exact ⟨t, by simp [h, stampLine], le_refl t⟩
      · exact ih t b l h

/-- The appended lines carry non-decreasing time stamps. -/
theorem appendedLines_pairwise (es : List SEvent) :
    ∀ (t : Nat) (b : Bool),
      List.Pairwise (fun a c => a.time.getD 0 ≤ c.time.getD 0)
        (appendedLines t b es) := by
  induction es with
  | nil => intro t b; simp [appendedLines]
  | cons e es ih =>
    intro t b
    cases e with
    | tick => rw [appendedLines]; exact ih _ b
    | pauseEv => rw [appendedLines]; exact ih t false
    | resumeEv => rw [appendedLines]; exact ih t true
    | appendEv w line =>
      rw [appendedLines]
      refine List.pairwise_cons.mpr ⟨?_, ih t b⟩
      intro l hl
      obtain ⟨u, hu, htu⟩ := appendedLines_time_ge es t b l hl
      simp [stampLine, hu]
      exact htu

/-- Mapping a record-update over the collection preserves any field the
update leaves alone. -/
theorem map_map_field {α : Type} (g : Meeting → α) (f : Meeting → Meeting)
    (hf : ∀ m, g (f m) = g m) (l : List Meeting) :
    (l.map f).map g = l.map g := by
  induction l with
  | nil => rfl
  | cons a l ih => simp [hf, ih]

/-- `find?` by id commutes with an id-preserving record update applied at
the matching id. -/
theorem find_map_by_id (meetingId : String) (f : Meeting → Meeting)
    (hid : ∀ m, (f m).id = m.id) (l : List Meeting) (m : Meeting)
    (h : l.find? (fun x => x.id == meetingId) = some m) :
    (l.map fun x => if x.id = meetingId then f x else x).find?
        (fun x => x.id == meetingId) = some (if m.id = meetingId then f m else m) := by
  induction l with
  | nil => simp [List.find?] at h
  | cons a l ih =>
    by_cases ha : a.id = meetingId
    · have hpa : (a.id == meetingId) = true := by simp [ha]
      have ham : m = a := by
        simp only [List.find?, hpa] at h
        exact (Option.some.inj h).symm
      subst ham
      have hfa : ((f m).id == meetingId) = true := by simp [hid, ha]
      simp only [List.map_cons, if_pos ha, List.find?, hfa]
    · have hpa : (a.id == meetingId) = false := by simp [ha]
      simp only [List.find?, hpa] at h
      simp only [List.map_cons, if_neg ha, List.find?, hpa]
      exact ih h

/-- Folding `acc + (m.duration || 0)` over the collection sums the
durations. -/
theorem foldl_duration_sum (l : List Meeting) :
    ∀ a : Nat, l.foldl (fun acc m => acc + m.duration.getD 0) a =
      a + (l.map fun m => m.duration.getD 0).sum := by
  induction l with
  | nil => intro a; simp
  | cons x l ih =>
    intro a
    simp [List.foldl_cons, ih]
    omega

/-! ## Claims -/

/-- C1, counterexample.  The claim says `startRecording` while a session
is active fails with `SessionAlreadyActiveError` and mutates no session
state.  The source has no active-session check: from the concrete active
state `sActive` (5 elapsed seconds, a non-empty transcript), the call
succeeds and resets the elapsed counter and transcript. -/
theorem C1_start_while_active_counterexample :
    sActive.currentMeeting.isSome = true ∧
    sActive.recordingTime = 5 ∧
    sActive.liveTranscript ≠ [] ∧
    (startRecording { ms := 100, month := 2, year := 2026 } {} sActive).2.recordingTime = 0 ∧
    (startRecording { ms := 100, month := 2, year := 2026 } {} sActive).2.liveTranscript = [] := by
  decide

/-- C1, amended.  `startRecording` performs no active-session check and
never fails: in every state — in particular while a session is active —
it replaces the session wholesale: the fresh meeting becomes current,
recording turns on, the elapsed counter resets to 0, the transcript is
cleared, the roster is reseeded from the new meeting, and the stored
collection is untouched. -/
theorem startRecording_no_precondition_overwrites (w : Wall) (config : Config)
    (s : MeetingState) :
    (startRecording w config s).2.currentMeeting = some (startRecording w config s).1 ∧
    (startRecording w config s).2.isRecording = true ∧
    (startRecording w config s).2.recordingTime = 0 ∧
    (startRecording w config s).2.liveTranscript = [] ∧
    (startRecording w config s).2.participants = (startRecording w config s).1.participants ∧
    (startRecording w config s).2.meetings = s.meetings ∧
    (startRecording w config s).1.id = "meeting_" ++ toString w.ms ∧
    (startRecording w config s).1.status = "recording" :=
  ⟨rfl, rfl, rfl, rfl, rfl, rfl, rfl, rfl⟩

/-- C2, counterexample.  The claim says attaching an analysis also sets
the meeting's status to completed.  The source's `generateAnalysis` only
sets `analysis`: on the store holding `mStored` (status processing), the
meeting's status after the update is still processing. -/
theorem C2_attachAnalysis_status_counterexample :
    (getMeetingById "meeting_7" (generateAnalysisUpdate "meeting_7" sStore)).map
        Meeting.analysis = some (some mindmeetAnalysis) ∧
    (getMeetingById "meeting_7" (generateAnalysisUpdate "meeting_7" sStore)).map
        Meeting.status = some "processing" ∧
    "processing" ≠ "completed" := by
  decide

/-- C2, amended.  For every meeting present in the store,
`generateAnalysis` sets that meeting's analysis payload and leaves every
meeting's status unchanged; the move to status completed is made
separately by the 3-second timer `stopRecording` schedules
(`stopDeferredAction`), not by the analysis attachment. -/
theorem generateAnalysis_attaches_payload_preserves_status (meetingId : String)
    (s : MeetingState) (m : Meeting) (h : getMeetingById meetingId s = some m) :
    (generateAnalysisUpdate meetingId s).meetings.map Meeting.status =
      s.meetings.map Meeting.status ∧
    getMeetingById meetingId (generateAnalysisUpdate meetingId s) =
      some { m with analysis := some mindmeetAnalysis } := by
  simp only [getMeetingById] at h
  have hm2 : m.id = meetingId := by
    have hm := List.find?_some h
    simpa using hm
  constructor
  · simp only [generateAnalysisUpdate]
    exact map_map_field Meeting.status _
      (fun x => by by_cases hx : x.id = meetingId <;> simp [hx]) s.meetings
  · have hfind := find_map_by_id meetingId
      (fun x => { x with analysis := some mindmeetAnalysis }) (fun x => rfl)
      s.meetings m h
    rw [if_pos hm2] at hfind
    simpa only [getMeetingById, generateAnalysisUpdate] using hfind

/-- Witness for the amended C2 theorem: the concrete store `sStore`. -/
theorem generateAnalysis_attaches_payload_preserves_status_witness :
    (generateAnalysisUpdate "meeting_7" sStore).meetings.map Meeting.status =
      sStore.meetings.map Meeting.status ∧
    getMeetingById "meeting_7" (generateAnalysisUpdate "meeting_7" sStore) =
      some { mStored with analysis := some mindmeetAnalysis } :=
  generateAnalysis_attaches_payload_preserves_status "meeting_7" sStore mStored
    (by decide)

/-- C3.  For every run of a session — any interleaving of clock ticks,
pauses, resumes and transcript appends after a start — the meeting
produced by `stopRecording` has `duration` equal to the number of clock
ticks delivered while in the recording state (`recSeconds`), so time
spent paused contributes nothing; and the value is fixed at stop time:
neither `updateMeetingStatus` nor the analysis attachment changes any
stored duration. -/
theorem stop_duration_counts_recording_seconds (w1 : Wall) (config : Config)
    (s : MeetingState) (es : List SEvent) (w2 : Wall) :
    ((stopRecording w2 (runEvents (startRecording w1 config s).2 es)).1.map
        Meeting.duration = some (some (recSeconds true es))) ∧
    (∀ (meetingId status : String) (t : MeetingState),
      (updateMeetingStatus meetingId status t).meetings.map Meeting.duration =
        t.meetings.map Meeting.duration) ∧
    (∀ (meetingId : String) (t : MeetingState),
      (generateAnalysisUpdate meetingId t).meetings.map Meeting.duration =
        t.meetings.map Meeting.duration) := by
  refine ⟨?_, ?_, ?_⟩
  · have hcur : (runEvents (startRecording w1 config s).2 es).currentMeeting =
        some (startRecording w1 config s).1 := by
      rw [runEvents_currentMeeting]
      rfl
    have hrt : (runEvents (startRecording w1 config s).2 es).recordingTime =
        recSeconds true es := by
      rw [runEvents_recordingTime]
      simp [startRecording]
    simp [stopRecording, hcur, hrt]
  · intro meetingId status t
    simp only [updateMeetingStatus]
    exact map_map_field Meeting.duration _
      (fun x => by by_cases hx : x.id = meetingId <;> simp [hx]) t.meetings
  · intro meetingId t
    simp only [generateAnalysisUpdate]
    exact map_map_field Meeting.duration _
      (fun x => by by_cases hx : x.id = meetingId <;> simp [hx]) t.meetings

/-- Counting by a filter agrees with `countP` under a pointwise-equal
predicate. -/
theorem length_filter_eq_countP {α : Type} (p q : α → Bool) (h : ∀ a, p a = q a)
    (l : List α) : (l.filter p).length = l.countP q := by
  induction l with
  | nil => rfl
  | cons a l ih =>
    have hqa := (h a).symm
    rw [List.countP_cons, List.filter_cons]
    cases hpa : p a with
    | true =>
      rw [hpa] at hqa
      simp [ih, hqa]
    | false =>
      rw [hpa] at hqa
      simp [ih, hqa]

/-- The month filter holds exactly when `createdAt` equals the wall
clock's month and year. -/
theorem isThisMonth_eq_beq (w : Wall) (m : Meeting) :
    isThisMonth w m = (m.createdAt == some { month := w.month, year := w.year }) := by
  cases hc : m.createdAt with
  | none => simp [isThisMonth, hc]
  | some d =>
    cases d with
    | mk dm dy =>
      simp only [isThisMonth, hc]
      rw [Bool.eq_iff_iff]
      simp

/-- C4, counterexample.  The claim says `addTranscriptLine` with no
active session fails with `NoActiveSessionError` and appends nothing.
The source has no such check: from the initial state (no current
meeting) the call appends the stamped line. -/
theorem C4_append_without_session_counterexample :
    emptyState.currentMeeting = none ∧
    (addTranscriptLine { ms := 9, month := 0, year := 2026 } sampleLine
        emptyState).liveTranscript =
      [{ sampleLine with id := some 9, time := some 0 }] := by
  decide

/-- C4, amended.  `addTranscriptLine` performs no active-session check:
in every state — with or without an active session — it appends exactly
one line, stamped with the current elapsed time, and touches nothing
else. -/
theorem addTranscriptLine_appends_unconditionally (w : Wall)
    (line : TranscriptLine) (s : MeetingState) :
    (addTranscriptLine w line s).liveTranscript =
      s.liveTranscript ++ [{ line with id := some w.ms, time := some s.recordingTime }] ∧
    (addTranscriptLine w line s).meetings = s.meetings ∧
    (addTranscriptLine w line s).currentMeeting = s.currentMeeting ∧
    (addTranscriptLine w line s).isRecording = s.isRecording ∧
    (addTranscriptLine w line s).recordingTime = s.recordingTime ∧
    (addTranscriptLine w line s).participants = s.participants :=
  ⟨rfl, rfl, rfl, rfl, rfl, rfl⟩

/-- C5, counterexample.  The claim says every mutating operation
serializes the full collection, including when it leaves the collection
empty.  The persistence effect only writes when the collection is
non-empty: deleting the last meeting leaves the stale previous
serialization in the store. -/
theorem C5_persist_skips_empty_counterexample :
    (deleteMeeting "meeting_7" sStore).meetings = [] ∧
    persistEffect (some [mStored]) (deleteMeeting "meeting_7" sStore).meetings =
      some [mStored] ∧
    some [mStored] ≠ some ([] : List Meeting) := by
  decide

/-- C5, amended.  A mutation that leaves the collection non-empty is
serialized in full through the store; a mutation that leaves it empty
writes nothing, so the previously stored serialization survives. -/
theorem persistEffect_serializes_nonempty (stored : Option (List Meeting))
    (ms : List Meeting) :
    (ms ≠ [] → persistEffect stored ms = some ms) ∧
    (ms = [] → persistEffect stored ms = stored) := by
  cases ms with
  | nil =>
    refine ⟨fun h => absurd rfl h, fun _ => by simp [persistEffect]⟩
  | cons a l =>
    refine ⟨fun _ => by simp [persistEffect], fun h => by simp at h⟩

/-- Witness for the amended C5 theorem: a singleton collection is
serialized. -/
theorem persistEffect_serializes_nonempty_witness :
    persistEffect none [mStored] = some [mStored] :=
  (persistEffect_serializes_nonempty none [mStored]).1 (by decide)

/-- C6, counterexample.  The claim says commit fails with
`DuplicateIdError` when the committed meeting's id is already present.
The source never checks: stopping `sDup`, whose current meeting shares
the id of the stored one, succeeds and leaves two records with the same
id. -/
theorem C6_commit_no_duplicate_check_counterexample :
    sDup.meetings.map Meeting.id = ["meeting_7"] ∧
    sDup.currentMeeting.map Meeting.id = some "meeting_7" ∧
    (stopRecording { ms := 90, month := 2, year := 2026 } sDup).1.isSome = true ∧
    (stopRecording { ms := 90, month := 2, year := 2026 } sDup).2.meetings.map
        Meeting.id = ["meeting_7", "meeting_7"] := by
  decide

/-- C6, amended.  Commit inserts the finalized meeting at the head of the
collection, all previously stored meetings following in their prior
order, unconditionally: there is no duplicate-id check, and the meeting
keeps its id even when that id is already present. -/
theorem stopRecording_commits_at_head (w : Wall) (s : MeetingState) (m : Meeting)
    (h : s.currentMeeting = some m) :
    ∃ fm : Meeting, (stopRecording w s).1 = some fm ∧
      (stopRecording w s).2.meetings = fm :: s.meetings ∧
      fm.id = m.id := by
  refine ⟨{ m with
      endTime := some w.ms,
      duration := some s.recordingTime,
      status := "processing",
      transcript := s.liveTranscript,
      createdAt := some { month := w.month, year := w.year } }, ?_, ?_, ?_⟩ <;>
    simp [stopRecording, h]

/-- Witness for the amended C6 theorem: the duplicate-id state `sDup`. -/
theorem stopRecording_commits_at_head_witness :
    ∃ fm : Meeting,
      (stopRecording { ms := 90, month := 2, year := 2026 } sDup).1 = some fm ∧
      (stopRecording { ms := 90, month := 2, year := 2026 } sDup).2.meetings =
        fm :: sDup.meetings ∧
      fm.id = mDupCurrent.id :=
  stopRecording_commits_at_head { ms := 90, month := 2, year := 2026 } sDup
    mDupCurrent (by decide)

/-- C7.  For every collection — the empty one included — the derived
stats satisfy: `total` is the number of stored meetings, `completed`
counts the meetings whose status is completed, `totalDuration` is the sum
of the meetings' durations (absent durations counting 0), and
`thisMonth` counts the meetings whose `createdAt` falls in the wall
clock's current calendar month and year. -/
theorem statsOf_matches_collection (w : Wall) (ms : List Meeting) :
    (statsOf w ms).total = ms.length ∧
    (statsOf w ms).completed = ms.countP (fun m => m.status == "completed") ∧
    (statsOf w ms).totalDuration = (ms.map fun m => m.duration.getD 0).sum ∧
    (statsOf w ms).thisMonth =
      ms.countP (fun m => m.createdAt == some { month := w.month, year := w.year }) := by
  refine ⟨rfl, ?_, ?_, ?_⟩
  · exact length_filter_eq_countP _ _ (fun a => rfl) ms
  · show ms.foldl (fun acc m => acc + m.duration.getD 0) 0 =
      (ms.map fun m => m.duration.getD 0).sum
    rw [foldl_duration_sum]
    simp
  · exact length_filter_eq_countP _ _ (fun a => isThisMonth_eq_beq w a) ms

/-- C8.  For every sequence of events during a started session, the
resulting live transcript consists exactly of the appended lines in call
order (`appendedLines` collects them in the order the append events
occur), and the elapsed-time stamps along the transcript are
non-decreasing. -/
theorem transcript_append_order_monotone (w : Wall) (config : Config)
    (s0 : MeetingState) (es : List SEvent) :
    (runEvents (startRecording w config s0).2 es).liveTranscript =
      appendedLines 0 true es ∧
    List.Pairwise (fun a c => a.time.getD 0 ≤ c.time.getD 0)
      ((runEvents (startRecording w config s0).2 es).liveTranscript) := by
  have h1 : (runEvents (startRecording w config s0).2 es).liveTranscript =
      appendedLines 0 true es := by
    rw [runEvents_liveTranscript]
    simp [startRecording]
  exact ⟨h1, h1 ▸ appendedLines_pairwise es 0 true⟩

/-- C9, counterexample.  The claim says the session's stamps override any
caller-supplied `time`/`timestamp` or `id` fields.  The spread only
overrides `time` and `id`: a caller-supplied `timestamp` field survives
unchanged (99 here) next to the session's own `time` stamp (0). -/
theorem C9_caller_timestamp_preserved_counterexample :
    timestampedLine.timestamp = some 99 ∧
    emptyState.recordingTime = 0 ∧
    (addTranscriptLine { ms := 11, month := 0, year := 2026 } timestampedLine
        emptyState).liveTranscript.map TranscriptLine.timestamp = [some 99] ∧
    (addTranscriptLine { ms := 11, month := 0, year := 2026 } timestampedLine
        emptyState).liveTranscript.map TranscriptLine.time = [some 0] := by
  decide

/-- C9, amended.  The appended line carries the session's stamps in the
`id` and `time` fields — a fresh id and the clock's current elapsed
value, overriding caller-supplied `id`/`time` — while the caller's
`speaker`, `text` and `timestamp` fields are preserved unchanged. -/
theorem addTranscriptLine_stamps_id_time_only (w : Wall) (line : TranscriptLine)
    (s : MeetingState) :
    ∃ l : TranscriptLine,
      (addTranscriptLine w line s).liveTranscript = s.liveTranscript ++ [l] ∧
      l.id = some w.ms ∧
      l.time = some s.recordingTime ∧
      l.speaker = line.speaker ∧
      l.text = line.text ∧
      l.timestamp = line.timestamp :=
  ⟨stampLine w s.recordingTime line, rfl, rfl, rfl, rfl, rfl, rfl⟩

/-- C10.  In every state, `pauseRecording` and `resumeRecording` change
only the recording flag: the in-progress meeting, the elapsed counter,
the live transcript, the roster and the stored collection are all
untouched by both calls. -/
theorem pause_resume_touch_only_flag (s : MeetingState) :
    (pauseRecording s).isRecording = false ∧
    (pauseRecording s).meetings = s.meetings ∧
    (pauseRecording s).currentMeeting = s.currentMeeting ∧
    (pauseRecording s).recordingTime = s.recordingTime ∧
    (pauseRecording s).liveTranscript = s.liveTranscript ∧
    (pauseRecording s).participants = s.participants ∧
    (resumeRecording s).isRecording = true ∧
    (resumeRecording s).meetings = s.meetings ∧
    (resumeRecording s).currentMeeting = s.currentMeeting ∧
    (resumeRecording s).recordingTime = s.recordingTime ∧
    (resumeRecording s).liveTranscript = s.liveTranscript ∧
    (resumeRecording s).participants = s.participants :=
  ⟨rfl, rfl, rfl, rfl, rfl, rfl, rfl, rfl, rfl, rfl, rfl, rfl⟩
